import Mathlib

/-
Verification of the on-call schedule store of `backend/main.py`
(devops-oncall).  Timestamps (`datetime` values) are embedded as integers:
the code only compares them with a total order and adds a one-day offset,
so any linearly ordered type with addition works; we fix `Int` and take
`86400` (seconds) for `timedelta(days=1)`.  Database rows become Lean
structures, the SQLAlchemy session becomes an explicit `DB` state, and
each FastAPI handler becomes a function returning `Except ApiError _`
(raising an `HTTPException` corresponds to returning `.error _`, in which
case the database is unchanged: no new state is produced).
-/

/-- A row of the `users` table (`class User(Base)` in `backend/main.py`).
Password hashing is an external collaborator, so `hashed_password` is just
the string the hash function produced. -/
structure User where
  id : Int
  email : String
  username : String
  hashed_password : String
  full_name : Option String
  is_admin : Bool
  is_active : Bool
  created_at : Int
deriving DecidableEq, Repr

/-- A row of the `oncall_schedules` table (`class OnCallSchedule(Base)`). -/
structure Schedule where
  id : Int
  user_id : Int
  start_date : Int
  end_date : Int
  notes : Option String
  created_by : Int
  created_at : Int
deriving DecidableEq, Repr

/-- Request body of `POST /oncall` (`class OnCallScheduleCreate`). -/
structure OnCallScheduleCreate where
  user_id : Int
  start_date : Int
  end_date : Int
  notes : Option String
deriving DecidableEq, Repr

/-- Request body of `POST /users` (`class UserCreate`). -/
structure UserCreate where
  email : String
  username : String
  full_name : Option String
  password : String
  is_admin : Bool
deriving DecidableEq, Repr

/-- The distinct `HTTPException`s raised by the handlers we embed. -/
inductive ApiError where
  /-- 404 "User not found" -/
  | userNotFound
  /-- 400 "Schedule overlaps with existing schedule" -/
  | overlapConflict
  /-- 404 "Schedule not found" -/
  | scheduleNotFound
  /-- 400 "Username already registered" -/
  | usernameRegistered
  /-- 400 "Email already registered" -/
  | emailRegistered
deriving DecidableEq, Repr

/-- The database state: the two tables plus the auto-increment counters
for their integer primary keys. -/
structure DB where
  users : List User
  schedules : List Schedule
  next_user_id : Int
  next_schedule_id : Int
deriving DecidableEq, Repr

/-- The empty database (`Base.metadata.create_all` on a fresh backend). -/
def emptyDB : DB :=
  { users := [], schedules := [], next_user_id := 1, next_schedule_id := 1 }

/-- The overlap filter of `create_oncall_schedule` (main.py lines 269-273):
an existing row conflicts with the request when it belongs to the same
user and `existing.start_date < new.end_date AND existing.end_date >
new.start_date`. -/
def overlaps (existing : Schedule) (req : OnCallScheduleCreate) : Bool :=
  existing.user_id == req.user_id &&
  decide (existing.start_date < req.end_date) &&
  decide (existing.end_date > req.start_date)

/-- `POST /oncall` (`create_oncall_schedule`, main.py lines 257-288):
check the referenced user exists (else 404), check for an overlapping
same-user schedule (else 400), then insert the new row.  `current_user_id`
is the id of the authenticated admin, `created_at` the clock reading. -/
def create_oncall_schedule (req : OnCallScheduleCreate) (current_user_id : Int)
    (created_at : Int) (db : DB) : Except ApiError (DB × Schedule) :=
  match db.users.find? (fun u => u.id == req.user_id) with
  | none => .error .userNotFound
  | some _ =>
    match db.schedules.find? (fun s => overlaps s req) with
    | some _ => .error .overlapConflict
    | none =>
      let sch : Schedule :=
        { id := db.next_schedule_id
          user_id := req.user_id
          start_date := req.start_date
          end_date := req.end_date
          notes := req.notes
          created_by := current_user_id
          created_at := created_at }
      .ok ({ db with
              schedules := db.schedules ++ [sch]
              next_schedule_id := db.next_schedule_id + 1 }, sch)

/-- `DELETE /oncall/{schedule_id}` (`delete_oncall_schedule`, main.py
lines 329-341): find the row by id (else 404) and delete it. -/
def delete_oncall_schedule (schedule_id : Int) (db : DB) : Except ApiError DB :=
  match db.schedules.find? (fun s => s.id == schedule_id) with
  | none => .error .scheduleNotFound
  | some _ =>
    .ok { db with schedules := db.schedules.eraseP (fun s => s.id == schedule_id) }

/-- `GET /oncall/current` (`get_current_oncall`, main.py lines 298-312):
first stored schedule whose interval contains `now`
(`start_date <= now` and `end_date >= now`); `none` becomes the 404
"No one is currently on-call". -/
def get_current_oncall (now : Int) (db : DB) : Option Schedule :=
  db.schedules.find? (fun s =>
    decide (s.start_date ≤ now) && decide (s.end_date ≥ now))

/-- The range filter shared by the spec's `list_active_in_range` and the
code's today query: all schedules with
`start_date < range_end AND end_date > range_start`. -/
def list_active_in_range (range_start range_end : Int) (db : DB) : List Schedule :=
  db.schedules.filter (fun s =>
    decide (s.start_date < range_end) && decide (s.end_date > range_start))

/-- Midnight of the day containing `now`:
`datetime.utcnow().replace(hour=0, minute=0, second=0, microsecond=0)`
under the seconds-since-epoch embedding. -/
def midnightOf (now : Int) : Int := now - now % 86400

/-- `GET /oncall/today` (`get_today_oncall`, main.py lines 314-327):
schedules intersecting `[midnight today, midnight today + 1 day)`. -/
def get_today_oncall (now : Int) (db : DB) : List Schedule :=
  let today_start := midnightOf now
  let today_end := today_start + 86400
  list_active_in_range today_start today_end db

/-- `GET /oncall` (`list_oncall_schedules`, main.py lines 290-296):
all schedules, descending by `start_date`. -/
def list_oncall_schedules (db : DB) : List Schedule :=
  db.schedules.mergeSort (fun a b => decide (b.start_date ≤ a.start_date))

/-- `POST /users` (`create_user`, main.py lines 222-247): reject duplicate
username, then duplicate email, then insert.  `hash` is the external
`get_password_hash` collaborator. -/
def create_user (hash : String → String) (req : UserCreate) (created_at : Int)
    (db : DB) : Except ApiError (DB × User) :=
  if db.users.any (fun u => u.username == req.username) then
    .error .usernameRegistered
  else if db.users.any (fun u => u.email == req.email) then
    .error .emailRegistered
  else
    let u : User :=
      { id := db.next_user_id
        email := req.email
        username := req.username
        hashed_password := hash req.password
        full_name := req.full_name
        is_admin := req.is_admin
        is_active := true
        created_at := created_at }
    .ok ({ db with users := db.users ++ [u], next_user_id := db.next_user_id + 1 }, u)

/-- One successful mutating operation of the store: user creation,
schedule creation, or schedule deletion.  (Failed operations do not
change the state.) -/
inductive Step : DB → DB → Prop where
  | createUser (hash : String → String) (req : UserCreate) (created_at : Int)
      (db db' : DB) (u : User) :
      create_user hash req created_at db = .ok (db', u) → Step db db'
  | createSchedule (req : OnCallScheduleCreate) (current_user_id created_at : Int)
      (db db' : DB) (s : Schedule) :
      create_oncall_schedule req current_user_id created_at db = .ok (db', s) →
      Step db db'
  | deleteSchedule (schedule_id : Int) (db db' : DB) :
      delete_oncall_schedule schedule_id db = .ok db' → Step db db'

/-- Database states reachable from the empty store by store operations. -/
def Reachable (db : DB) : Prop := Relation.ReflTransGen Step emptyDB db

/-- The spec's per-user non-overlap invariant over a list of stored
schedules: no two distinct stored schedules of the same user overlap. -/
def NoSameUserOverlap (l : List Schedule) : Prop :=
  ∀ s1 ∈ l, ∀ s2 ∈ l, s1 ≠ s2 → s1.user_id = s2.user_id →
    ¬(s1.start_date < s2.end_date ∧ s1.end_date > s2.start_date)

/-- Referential integrity: every stored schedule's `user_id` matches a
stored user.  (In the source this is the `ForeignKey("users.id")`
constraint on `OnCallSchedule.user_id`.) -/
def UsersCoverSchedules (db : DB) : Prop :=
  ∀ s ∈ db.schedules, ∃ u ∈ db.users, u.id = s.user_id

/-! ### Concrete example states, used to instantiate the theorems -/

/-- A trivial password-hash collaborator for the examples. -/
def hashId : String → String := fun s => s

/-- Example `POST /users` request. -/
def uReq : UserCreate :=
  { email := "alice@example.com", username := "alice", full_name := none,
    password := "pw", is_admin := false }

/-- The user row created from `uReq` on the empty database. -/
def u1 : User :=
  { id := 1, email := "alice@example.com", username := "alice",
    hashed_password := "pw", full_name := none, is_admin := false,
    is_active := true, created_at := 0 }

/-- Database after creating `u1`. -/
def db1 : DB :=
  { users := [u1], schedules := [], next_user_id := 2, next_schedule_id := 1 }

/-- Example schedule request for user 1, interval `[0, 10)`. -/
def sReq1 : OnCallScheduleCreate :=
  { user_id := 1, start_date := 0, end_date := 10, notes := none }

/-- The stored row created from `sReq1`. -/
def sch1 : Schedule :=
  { id := 1, user_id := 1, start_date := 0, end_date := 10, notes := none,
    created_by := 1, created_at := 5 }

/-- Database after creating `u1` and `sch1`. -/
def db2 : DB :=
  { users := [u1], schedules := [sch1], next_user_id := 2, next_schedule_id := 2 }

/-- Example schedule request for user 1, interval `[20, 30)`. -/
def sReq2 : OnCallScheduleCreate :=
  { user_id := 1, start_date := 20, end_date := 30, notes := none }

/-- The stored row created from `sReq2`. -/
def sch2 : Schedule :=
  { id := 2, user_id := 1, start_date := 20, end_date := 30, notes := none,
    created_by := 1, created_at := 6 }

/-- Database after creating `u1`, `sch1` and `sch2`. -/
def db3 : DB :=
  { users := [u1], schedules := [sch1, sch2], next_user_id := 2, next_schedule_id := 3 }

/-- A second example user. -/
def u2 : User :=
  { id := 2, email := "bob@example.com", username := "bob",
    hashed_password := "pw", full_name := none, is_admin := false,
    is_active := true, created_at := 0 }

/-- A schedule of user 2 over `[0, 10)`. -/
def schB : Schedule :=
  { id := 7, user_id := 2, start_date := 0, end_date := 10, notes := none,
    created_by := 1, created_at := 0 }

/-- A database with two users where only user 2 has a schedule. -/
def db4 : DB :=
  { users := [u1, u2], schedules := [schB], next_user_id := 3, next_schedule_id := 8 }

/-- A database holding a schedule for user 1 but no user rows at all. -/
def dbGhost : DB :=
  { users := [], schedules := [sch1], next_user_id := 1, next_schedule_id := 2 }

/-- A create request for user 1 overlapping `sch1`. -/
def ovReq : OnCallScheduleCreate :=
  { user_id := 1, start_date := 5, end_date := 15, notes := none }

/-- A degenerate create request for user 1 with `end_date ≤ start_date`. -/
def degReq : OnCallScheduleCreate :=
  { user_id := 1, start_date := 100, end_date := 50, notes := none }

/-- The stored row created from `degReq` on `db1`. -/
def degSched : Schedule :=
  { id := 1, user_id := 1, start_date := 100, end_date := 50, notes := none,
    created_by := 1, created_at := 0 }

/-- Database after creating `u1` and `degSched`. -/
def db1deg : DB :=
  { users := [u1], schedules := [degSched], next_user_id := 2, next_schedule_id := 2 }

/-- A create request for user 1 abutting `sch1` exactly at its end. -/
def abutReq : OnCallScheduleCreate :=
  { user_id := 1, start_date := 10, end_date := 20, notes := none }

/-- `db3` after deleting the schedule with id 1. -/
def db3del : DB :=
  { users := [u1], schedules := [sch2], next_user_id := 2, next_schedule_id := 3 }

/-! ### Helper lemmas -/

theorem reachable_db1 : Reachable db1 :=
  Relation.ReflTransGen.single
    (Step.createUser hashId uReq 0 emptyDB db1 u1 (by rfl))

theorem reachable_db2 : Reachable db2 :=
  Relation.ReflTransGen.tail reachable_db1
    (Step.createSchedule sReq1 1 5 db1 db2 sch1 (by rfl))

theorem reachable_db3 : Reachable db3 :=
  Relation.ReflTransGen.tail reachable_db2
    (Step.createSchedule sReq2 1 6 db2 db3 sch2 (by rfl))

theorem overlaps_iff (e : Schedule) (req : OnCallScheduleCreate) :
    overlaps e req = true ↔
      e.user_id = req.user_id ∧ e.start_date < req.end_date ∧
        e.end_date > req.start_date := by
  simp [overlaps, and_assoc]

theorem overlaps_eq_false_iff (e : Schedule) (req : OnCallScheduleCreate) :
    overlaps e req = false ↔
      ¬(e.user_id = req.user_id ∧ e.start_date < req.end_date ∧
          e.end_date > req.start_date) := by
  rw [← overlaps_iff]
  exact ⟨fun h => by simp [h], fun h => by simpa using h⟩

theorem create_eq_error_userNotFound (req : OnCallScheduleCreate)
    (cuid cat : Int) (db : DB) (h : ∀ u ∈ db.users, u.id ≠ req.user_id) :
    create_oncall_schedule req cuid cat db = .error .userNotFound := by
  unfold create_oncall_schedule
  rw [List.find?_eq_none.mpr (fun u hu => by simpa using h u hu)]

theorem create_eq_error_overlapConflict (req : OnCallScheduleCreate)
    (cuid cat : Int) (db : DB)
    (hu : ∃ u ∈ db.users, u.id = req.user_id)
    (he : ∃ e ∈ db.schedules, overlaps e req = true) :
    create_oncall_schedule req cuid cat db = .error .overlapConflict := by
  unfold create_oncall_schedule
  obtain ⟨u, hu1, hu2⟩ := hu
  have h1 : (db.users.find? (fun u => u.id == req.user_id)).isSome := by
    rw [List.find?_isSome]
    exact ⟨u, hu1, by simpa using hu2⟩
  obtain ⟨u', hfu⟩ := Option.isSome_iff_exists.mp h1
  rw [hfu]
  have h2 : (db.schedules.find? (fun s => overlaps s req)).isSome := by
    rw [List.find?_isSome]
    obtain ⟨e, he1, he2⟩ := he
    exact ⟨e, he1, he2⟩
  obtain ⟨e', hfe⟩ := Option.isSome_iff_exists.mp h2
  rw [hfe]

theorem create_eq_ok (req : OnCallScheduleCreate) (cuid cat : Int) (db : DB)
    (hu : ∃ u ∈ db.users, u.id = req.user_id)
    (hno : ∀ e ∈ db.schedules, overlaps e req = false) :
    create_oncall_schedule req cuid cat db =
      .ok ({ db with
              schedules := db.schedules ++
                [{ id := db.next_schedule_id, user_id := req.user_id,
                   start_date := req.start_date, end_date := req.end_date,
                   notes := req.notes, created_by := cuid, created_at := cat }]
              next_schedule_id := db.next_schedule_id + 1 },
           { id := db.next_schedule_id, user_id := req.user_id,
             start_date := req.start_date, end_date := req.end_date,
             notes := req.notes, created_by := cuid, created_at := cat }) := by
  unfold create_oncall_schedule
  obtain ⟨u, hu1, hu2⟩ := hu
  have h1 : (db.users.find? (fun u => u.id == req.user_id)).isSome := by
    rw [List.find?_isSome]
    exact ⟨u, hu1, by simpa using hu2⟩
  obtain ⟨u', hfu⟩ := Option.isSome_iff_exists.mp h1
  rw [hfu, List.find?_eq_none.mpr (fun e he => by simp [hno e he])]

theorem create_ok_inv {req : OnCallScheduleCreate} {cuid cat : Int}
    {db db' : DB} {sch : Schedule}
    (h : create_oncall_schedule req cuid cat db = .ok (db', sch)) :
    (∃ u ∈ db.users, u.id = req.user_id) ∧
    (∀ e ∈ db.schedules, overlaps e req = false) ∧
    sch = { id := db.next_schedule_id, user_id := req.user_id,
            start_date := req.start_date, end_date := req.end_date,
            notes := req.notes, created_by := cuid, created_at := cat } ∧
    db' = { db with schedules := db.schedules ++ [sch],
                    next_schedule_id := db.next_schedule_id + 1 } := by
  unfold create_oncall_schedule at h
  cases hfu : db.users.find? (fun u => u.id == req.user_id) with
  | none => rw [hfu] at h; exact absurd h (by simp)
  | some u =>
    rw [hfu] at h
    cases hfs : db.schedules.find? (fun s => overlaps s req) with
    | some e => rw [hfs] at h; exact absurd h (by simp)
    | none =>
      rw [hfs] at h
      simp only [Except.ok.injEq, Prod.mk.injEq] at h
      obtain ⟨h1, h2⟩ := h
      subst h1
      subst h2
      refine ⟨⟨u, List.mem_of_find?_eq_some hfu, by
        simpa using List.find?_some hfu⟩, ?_, rfl, rfl⟩
      intro e he
      simpa using List.find?_eq_none.mp hfs e he

theorem delete_ok_inv {schedule_id : Int} {db db' : DB}
    (h : delete_oncall_schedule schedule_id db = .ok db') :
    (∃ s ∈ db.schedules, s.id = schedule_id) ∧
    db'.schedules = db.schedules.eraseP (fun s => s.id == schedule_id) ∧
    db'.users = db.users := by
  unfold delete_oncall_schedule at h
  cases hfs : db.schedules.find? (fun s => s.id == schedule_id) with
  | none => rw [hfs] at h; exact absurd h (by simp)
  | some s =>
    rw [hfs] at h
    simp only [Except.ok.injEq] at h
    subst h
    exact ⟨⟨s, List.mem_of_find?_eq_some hfs, by
      simpa using List.find?_some hfs⟩, rfl, rfl⟩

theorem create_user_ok_inv {hash : String → String} {req : UserCreate}
    {cat : Int} {db db' : DB} {u : User}
    (h : create_user hash req cat db = .ok (db', u)) :
    db'.users = db.users ++ [u] ∧ db'.schedules = db.schedules := by
  unfold create_user at h
  split at h
  · exact absurd h (by simp)
  · split at h
    · exact absurd h (by simp)
    · simp only [Except.ok.injEq, Prod.mk.injEq] at h
      obtain ⟨h1, h2⟩ := h
      subst h1
      subst h2
      exact ⟨rfl, rfl⟩

theorem noSameUserOverlap_subset {l l' : List Schedule} (h : l' ⊆ l)
    (hinv : NoSameUserOverlap l) : NoSameUserOverlap l' :=
  fun s1 h1 s2 h2 hne hu => hinv s1 (h h1) s2 (h h2) hne hu

theorem noSameUserOverlap_append {l : List Schedule}
    {req : OnCallScheduleCreate} {sch : Schedule}
    (hinv : NoSameUserOverlap l)
    (hno : ∀ e ∈ l, overlaps e req = false)
    (hu : sch.user_id = req.user_id) (hs : sch.start_date = req.start_date)
    (he : sch.end_date = req.end_date) :
    NoSameUserOverlap (l ++ [sch]) := by
  intro s1 h1 s2 h2 hne huid
  rcases List.mem_append.mp h1 with h1' | h1' <;>
    rcases List.mem_append.mp h2 with h2' | h2'
  · exact hinv s1 h1' s2 h2' hne huid
  · have h2'' : s2 = sch := List.mem_singleton.mp h2'
    subst h2''
    have hfalse := (overlaps_eq_false_iff s1 req).mp (hno s1 h1')
    intro hcon
    exact hfalse ⟨by rw [← hu, ← huid], by rw [← he]; exact hcon.1,
      by rw [← hs]; exact hcon.2⟩
  · have h1'' : s1 = sch := List.mem_singleton.mp h1'
    subst h1''
    have hfalse := (overlaps_eq_false_iff s2 req).mp (hno s2 h2')
    intro hcon
    refine hfalse ⟨by rw [← hu]; exact huid.symm, ?_, ?_⟩
    · rw [← he]; exact hcon.2
    · rw [← hs]; exact hcon.1
  · exact absurd (by
      rw [List.mem_singleton.mp h1', List.mem_singleton.mp h2']) hne

theorem step_preserves {db db' : DB} (h : Step db db')
    (h1 : NoSameUserOverlap db.schedules) (h2 : UsersCoverSchedules db) :
    NoSameUserOverlap db'.schedules ∧ UsersCoverSchedules db' := by
  cases h with
  | createUser hash req created_at db db' u hok =>
    obtain ⟨hu, hs⟩ := create_user_ok_inv hok
    refine ⟨by rw [hs]; exact h1, ?_⟩
    intro s hmem
    obtain ⟨u', hu1, hu2⟩ := h2 s (by rw [← hs]; exact hmem)
    exact ⟨u', by rw [hu]; exact List.mem_append_left _ hu1, hu2⟩
  | createSchedule req cuid cat db db' s hok =>
    obtain ⟨⟨u, hu1, hu2⟩, hno, hsch, hdb⟩ := create_ok_inv hok
    constructor
    · rw [hdb]
      exact noSameUserOverlap_append h1 hno (by rw [hsch]) (by rw [hsch])
        (by rw [hsch])
    · intro s' hmem
      rw [hdb] at hmem
      rcases List.mem_append.mp hmem with hm | hm
      · obtain ⟨u', hu1', hu2'⟩ := h2 s' hm
        exact ⟨u', by rw [hdb]; exact hu1', hu2'⟩
      · have hs' : s' = s := List.mem_singleton.mp hm
        subst hs'
        exact ⟨u, by rw [hdb]; exact hu1, by rw [hsch, hu2]⟩
  | deleteSchedule sid db db' hok =>
    obtain ⟨-, hsch, husers⟩ := delete_ok_inv hok
    have hsub : db'.schedules ⊆ db.schedules := by
      rw [hsch]
      exact (List.eraseP_sublist _).subset
    refine ⟨noSameUserOverlap_subset hsub h1, ?_⟩
    intro s hmem
    obtain ⟨u, hu1, hu2⟩ := h2 s (hsub hmem)
    exact ⟨u, by rw [husers]; exact hu1, hu2⟩

theorem reachable_inv {db : DB} (h : Reachable db) :
    NoSameUserOverlap db.schedules ∧ UsersCoverSchedules db := by
  induction h with
  | refl =>
    constructor
    · intro s1 hs1
      simp [emptyDB] at hs1
    · intro s hs
      simp [emptyDB] at hs
  | tail _ hstep ih => exact step_preserves hstep ih.1 ih.2

/-! ### Claim theorems -/

/-- Claim C1: every sequence of store operations starting from the empty
store preserves the per-user non-overlap invariant: in each reachable
database state, any two distinct stored schedules with the same `user_id`
do not overlap, where `overlap(S1, S2)` means
`S1.start_date < S2.end_date AND S1.end_date > S2.start_date`. -/
theorem C1_store_preserves_per_user_non_overlap (db : DB) (h : Reachable db) :
    ∀ s1 ∈ db.schedules, ∀ s2 ∈ db.schedules, s1 ≠ s2 →
      s1.user_id = s2.user_id →
      ¬(s1.start_date < s2.end_date ∧ s1.end_date > s2.start_date) :=
  (reachable_inv h).1

/-- Witness for C1 at the concrete reachable state `db3`, which stores the
two user-1 schedules `sch1` and `sch2`: they do not overlap. -/
theorem C1_store_preserves_per_user_non_overlap_witness :
    ¬(sch1.start_date < sch2.end_date ∧ sch1.end_date > sch2.start_date) :=
  C1_store_preserves_per_user_non_overlap db3 reachable_db3
    sch1 (by decide) sch2 (by decide) (by decide) (by decide)

/-- Claim C2: in any reachable database state (where, by the foreign-key
invariant, every stored schedule's user exists), a create request whose
interval overlaps an existing schedule of the same user fails with the
400 overlap conflict; returning an error, it produces no new database
state, so the store is unchanged. -/
theorem C2_overlapping_create_rejected (db : DB) (req : OnCallScheduleCreate)
    (cuid cat : Int) (h : Reachable db)
    (hov : ∃ e ∈ db.schedules, e.user_id = req.user_id ∧
      e.start_date < req.end_date ∧ e.end_date > req.start_date) :
    create_oncall_schedule req cuid cat db = .error .overlapConflict := by
  obtain ⟨e, he, h1, h2, h3⟩ := hov
  obtain ⟨u, hu, hu2⟩ := (reachable_inv h).2 e he
  exact create_eq_error_overlapConflict req cuid cat db
    ⟨u, hu, by rw [hu2, h1]⟩
    ⟨e, he, (overlaps_iff e req).mpr ⟨h1, h2, h3⟩⟩

/-- Witness for C2: on `db3`, the request `[5, 15)` for user 1 overlaps
the stored `[0, 10)` schedule and is rejected. -/
theorem C2_overlapping_create_rejected_witness :
    create_oncall_schedule ovReq 1 7 db3 = .error .overlapConflict :=
  C2_overlapping_create_rejected db3 ovReq 1 7 reachable_db3
    ⟨sch1, by decide, by decide, by decide, by decide⟩

/-- Claim C3: the current-on-call lookup returns a schedule iff some
stored schedule `S` satisfies `S.start_date ≤ t ≤ S.end_date` (the empty
result is exposed as the 404 "No one is currently on-call"), and any
schedule it returns is stored and contains `t`. -/
theorem C3_find_current_iff (now : Int) (db : DB) :
    ((get_current_oncall now db).isSome ↔
      ∃ s ∈ db.schedules, s.start_date ≤ now ∧ now ≤ s.end_date) ∧
    (∀ s, get_current_oncall now db = some s →
      s ∈ db.schedules ∧ s.start_date ≤ now ∧ now ≤ s.end_date) := by
  constructor
  · rw [get_current_oncall, List.find?_isSome]
    constructor
    · rintro ⟨s, hs, hp⟩
      simp at hp
      exact ⟨s, hs, hp.1, hp.2⟩
    · rintro ⟨s, hs, h1, h2⟩
      exact ⟨s, hs, by simp [h1, h2]⟩
  · intro s hs
    have hmem := List.mem_of_find?_eq_some hs
    have hp := List.find?_some hs
    simp at hp
    exact ⟨hmem, hp.1, hp.2⟩

/-- Witness for C3: at time 5, `db3` has someone on call. -/
theorem C3_find_current_iff_witness : (get_current_oncall 5 db3).isSome :=
  ((C3_find_current_iff 5 db3).1).mpr ⟨sch1, by decide, by decide, by decide⟩

/-- Claim C4 counterexample: the claim says create rejects every request
with `end_date ≤ start_date`, but from the reachable state `db1` (one
user, no schedules) the degenerate request `[100, 50]` is accepted and
its schedule is stored: `create_oncall_schedule` never compares
`start_date` with `end_date`. -/
theorem C4_counterexample :
    degReq.end_date ≤ degReq.start_date ∧
    Reachable db1 ∧
    create_oncall_schedule degReq 1 0 db1 = .ok (db1deg, degSched) ∧
    degSched ∈ db1deg.schedules :=
  ⟨by decide, reachable_db1, by rfl, by decide⟩

/-- Claim C4 amended: create performs no interval-orientation check: a
request with `end_date ≤ start_date` is accepted (and its schedule
stored) whenever the referenced user exists and no stored same-user
schedule overlaps it. -/
theorem C4_amended_degenerate_accepted (db : DB) (req : OnCallScheduleCreate)
    (cuid cat : Int)
    (hdeg : req.end_date ≤ req.start_date)
    (hu : ∃ u ∈ db.users, u.id = req.user_id)
    (hno : ∀ e ∈ db.schedules, ¬(e.user_id = req.user_id ∧
      e.start_date < req.end_date ∧ e.end_date > req.start_date)) :
    ∃ db' sch, create_oncall_schedule req cuid cat db = .ok (db', sch) ∧
      db'.schedules = db.schedules ++ [sch] ∧
      sch.start_date = req.start_date ∧ sch.end_date = req.end_date := by
  refine ⟨_, _, create_eq_ok req cuid cat db hu ?_, rfl, rfl, rfl⟩
  intro e he
  exact (overlaps_eq_false_iff e req).mpr (hno e he)

/-- Witness for the amended C4 on the concrete state `db1`. -/
theorem C4_amended_degenerate_accepted_witness :
    ∃ db' sch, create_oncall_schedule degReq 1 0 db1 = .ok (db', sch) ∧
      db'.schedules = db1.schedules ++ [sch] ∧
      sch.start_date = degReq.start_date ∧ sch.end_date = degReq.end_date :=
  C4_amended_degenerate_accepted db1 degReq 1 0 (by decide)
    ⟨u1, by decide, by decide⟩ (by decide)

/-- Claim C5: the today query returns exactly the stored schedules `S`
with `S.start_date < range_end AND S.end_date > range_start`, where
`range_start` is midnight of the current day and `range_end` is midnight
plus one day. -/
theorem C5_today_range (now : Int) (db : DB) (s : Schedule) :
    s ∈ get_today_oncall now db ↔
      s ∈ db.schedules ∧ s.start_date < midnightOf now + 86400 ∧
        s.end_date > midnightOf now := by
  simp [get_today_oncall, list_active_in_range, List.mem_filter, and_assoc]

/-- Witness for C5: `sch1` intersects the day containing time 3. -/
theorem C5_today_range_witness : sch1 ∈ get_today_oncall 3 db3 :=
  (C5_today_range 3 db3 sch1).mpr ⟨by decide, by decide, by decide⟩

/-- Claim C6: cross-user overlaps are permitted: a create request whose
user exists, which overlaps a stored schedule of a different user, and
which overlaps no stored schedule of its own user, succeeds and its
schedule is stored. -/
theorem C6_cross_user_overlap_allowed (db : DB) (req : OnCallScheduleCreate)
    (cuid cat : Int)
    (hu : ∃ u ∈ db.users, u.id = req.user_id)
    (hcross : ∃ e ∈ db.schedules, e.user_id ≠ req.user_id ∧
      e.start_date < req.end_date ∧ e.end_date > req.start_date)
    (hsame : ∀ e ∈ db.schedules, e.user_id = req.user_id →
      ¬(e.start_date < req.end_date ∧ e.end_date > req.start_date)) :
    ∃ db' sch, create_oncall_schedule req cuid cat db = .ok (db', sch) ∧
      db'.schedules = db.schedules ++ [sch] ∧ sch.user_id = req.user_id ∧
      sch.start_date = req.start_date ∧ sch.end_date = req.end_date := by
  refine ⟨_, _, create_eq_ok req cuid cat db hu ?_, rfl, rfl, rfl, rfl⟩
  intro e he
  rw [overlaps_eq_false_iff]
  rintro ⟨h1, h2, h3⟩
  exact hsame e he h1 ⟨h2, h3⟩

/-- Witness for C6: on `db4`, user 1's request `[0, 10)` overlaps user 2's
stored `[0, 10)` schedule and still succeeds. -/
theorem C6_cross_user_overlap_allowed_witness :
    ∃ db' sch, create_oncall_schedule sReq1 1 0 db4 = .ok (db', sch) ∧
      db'.schedules = db4.schedules ++ [sch] ∧ sch.user_id = sReq1.user_id ∧
      sch.start_date = sReq1.start_date ∧ sch.end_date = sReq1.end_date :=
  C6_cross_user_overlap_allowed db4 sReq1 1 0
    ⟨u1, by decide, by decide⟩
    ⟨schB, by decide, by decide, by decide, by decide⟩
    (by decide)

/-- Claim C7: the user-existence check comes first: whenever no stored
user has the requested `user_id`, create fails with the 404 user-not-found
error — whatever the stored schedules are, overlapping or not; returning
an error, it produces no new database state, so the schedules are
unchanged. -/
theorem C7_missing_user_rejected (db : DB) (req : OnCallScheduleCreate)
    (cuid cat : Int) (h : ∀ u ∈ db.users, u.id ≠ req.user_id) :
    create_oncall_schedule req cuid cat db = .error .userNotFound :=
  create_eq_error_userNotFound req cuid cat db h

/-- Witness for C7: on `dbGhost` (a schedule for user 1, no user rows), a
request for user 1 that even overlaps that schedule still fails with the
user-not-found error, not the overlap error. -/
theorem C7_missing_user_rejected_witness :
    create_oncall_schedule ovReq 1 0 dbGhost = .error .userNotFound :=
  C7_missing_user_rejected dbGhost ovReq 1 0 (by decide)

/-- Claim C8: delete succeeds exactly when a schedule with the given id is
stored — removing one schedule and leaving the users untouched — and
fails with the 404 schedule-not-found error when no stored schedule has
that id (returning an error, it produces no new database state, so the
store is unchanged). -/
theorem C8_delete_found_or_missing (db : DB) (sid : Int) :
    ((∃ s ∈ db.schedules, s.id = sid) →
      ∃ db', delete_oncall_schedule sid db = .ok db' ∧
        db'.schedules.length + 1 = db.schedules.length ∧
        db'.schedules.Sublist db.schedules ∧ db'.users = db.users) ∧
    ((∀ s ∈ db.schedules, s.id ≠ sid) →
      delete_oncall_schedule sid db = .error .scheduleNotFound) := by
  constructor
  · rintro ⟨s, hs, hid⟩
    have hfind : (db.schedules.find? (fun t => t.id == sid)).isSome := by
      rw [List.find?_isSome]
      exact ⟨s, hs, by simpa using hid⟩
    obtain ⟨s', hfs⟩ := Option.isSome_iff_exists.mp hfind
    have hdel : delete_oncall_schedule sid db =
        .ok { db with schedules := db.schedules.eraseP (fun t => t.id == sid) } := by
      unfold delete_oncall_schedule
      rw [hfs]
    have hps : (fun t : Schedule => t.id == sid) s = true := by simpa using hid
    obtain ⟨a, l₁, l₂, hl1, hpa, hl, herase⟩ :=
      @List.exists_of_eraseP Schedule (fun t => t.id == sid) db.schedules s hs hps
    refine ⟨_, hdel, ?_, List.eraseP_sublist _, rfl⟩
    rw [show (db.schedules.eraseP fun t => t.id == sid) = l₁ ++ l₂ from herase]
    rw [hl]
    simp
    omega
  · intro h
    unfold delete_oncall_schedule
    rw [List.find?_eq_none.mpr (fun s hsm => by simpa using h s hsm)]

/-- Witness for C8: on `db3`, deleting id 1 succeeds and deleting the
absent id 9999 fails with the schedule-not-found error. -/
theorem C8_delete_found_or_missing_witness :
    (∃ db', delete_oncall_schedule 1 db3 = .ok db' ∧
      db'.schedules.length + 1 = db3.schedules.length ∧
      db'.schedules.Sublist db3.schedules ∧ db'.users = db3.users) ∧
    delete_oncall_schedule 9999 db3 = .error .scheduleNotFound :=
  ⟨(C8_delete_found_or_missing db3 1).1 ⟨sch1, by decide, by decide⟩,
   (C8_delete_found_or_missing db3 9999).2 (by decide)⟩

/-- Claim C9: a successful delete removes exactly one stored schedule,
one bearing the requested id: the users table is untouched, the old
schedule list is a permutation of the removed row consed onto the new
one, every other schedule (in particular every schedule whose id differs)
remains stored with all of its fields unchanged, and nothing is added. -/
theorem C9_delete_frame (db db' : DB) (sid : Int)
    (h : delete_oncall_schedule sid db = .ok db') :
    db'.users = db.users ∧
    (∃ x, x.id = sid ∧ db.schedules.Perm (x :: db'.schedules)) ∧
    (∀ s ∈ db.schedules, s.id ≠ sid → s ∈ db'.schedules) ∧
    (∀ s ∈ db'.schedules, s ∈ db.schedules) := by
  obtain ⟨⟨s, hs, hid⟩, hsch, husers⟩ := delete_ok_inv h
  have hps : (fun t : Schedule => t.id == sid) s = true := by simpa using hid
  obtain ⟨a, l₁, l₂, hl1, hpa, hl, herase⟩ :=
    @List.exists_of_eraseP Schedule (fun t => t.id == sid) db.schedules s hs hps
  have haid : a.id = sid := by simpa using hpa
  have hperm : db.schedules.Perm (a :: db'.schedules) := by
    rw [hsch, herase]
    rw [show db.schedules = l₁ ++ a :: l₂ from hl]
    exact List.perm_middle
  refine ⟨husers, ⟨a, haid, hperm⟩, ?_, ?_⟩
  · intro t ht hne
    rcases List.mem_cons.mp (hperm.mem_iff.mp ht) with h' | h'
    · exact absurd (by rw [h', haid]) hne
    · exact h'
  · intro t ht
    exact hperm.mem_iff.mpr (List.mem_cons_of_mem _ ht)

/-- Witness for C9 on the concrete deletion of id 1 from `db3`. -/
theorem C9_delete_frame_witness :
    db3del.users = db3.users ∧
    (∃ x, x.id = 1 ∧ db3.schedules.Perm (x :: db3del.schedules)) ∧
    (∀ s ∈ db3.schedules, s.id ≠ 1 → s ∈ db3del.schedules) ∧
    (∀ s ∈ db3del.schedules, s ∈ db3.schedules) :=
  C9_delete_frame db3 db3del 1 (by rfl)

/-- Claim C10: exactly abutting same-user intervals are accepted: if the
store holds a schedule `S` of the requested user, the request starts
exactly at `S.end_date`, the user exists, and no other same-user schedule
conflicts, then create succeeds and stores the new schedule — the overlap
test's strict inequality `existing.end_date > new.start_date` fails on
`S` itself. -/
theorem C10_abutting_accepted (db : DB) (req : OnCallScheduleCreate)
    (cuid cat : Int) (S : Schedule)
    (hS : S ∈ db.schedules) (hSu : S.user_id = req.user_id)
    (habut : req.start_date = S.end_date)
    (hu : ∃ u ∈ db.users, u.id = req.user_id)
    (hothers : ∀ e ∈ db.schedules, e ≠ S → e.user_id = req.user_id →
      ¬(e.start_date < req.end_date ∧ e.end_date > req.start_date)) :
    ∃ db' sch, create_oncall_schedule req cuid cat db = .ok (db', sch) ∧
      db'.schedules = db.schedules ++ [sch] ∧ sch.user_id = req.user_id ∧
      sch.start_date = req.start_date ∧ sch.end_date = req.end_date := by
  refine ⟨_, _, create_eq_ok req cuid cat db hu ?_, rfl, rfl, rfl, rfl⟩
  intro e he
  rw [overlaps_eq_false_iff]
  rintro ⟨h1, h2, h3⟩
  by_cases heS : e = S
  · subst heS
    rw [habut] at h3
    exact absurd h3 (lt_irrefl _)
  · exact hothers e he heS h1 ⟨h2, h3⟩

/-- Witness for C10: on `db3` (user 1 holds `[0, 10)` and `[20, 30)`), the
request `[10, 20)` abutting both is accepted. -/
theorem C10_abutting_accepted_witness :
    ∃ db' sch, create_oncall_schedule abutReq 1 9 db3 = .ok (db', sch) ∧
      db'.schedules = db3.schedules ++ [sch] ∧ sch.user_id = abutReq.user_id ∧
      sch.start_date = abutReq.start_date ∧ sch.end_date = abutReq.end_date :=
  C10_abutting_accepted db3 abutReq 1 9 sch1 (by decide) (by decide)
    (by decide) ⟨u1, by decide, by decide⟩ (by decide)
